import Mathlib

/-!
Shallow embedding of `api/transcript.py` (YouTube transcript proxy).

The embedding covers:
* `html_template` — including the `textwrap.dedent` post-processing and the
  Python `f"{s['start']:06.1f}"` fixed-point formatting (floats are modelled
  as rationals; Python formats the IEEE double with round-half-to-even, which
  agrees with the rational model on all dyadic-exact inputs such as the ones
  appearing in the specification's examples);
* the `serve_transcript` route — the cache-first lookup, fall-through on an
  unreadable cache entry, provider invocation, render, best-effort
  write-through, and the mapping of provider failures to HTTP statuses.

Effects are made explicit: the filesystem cache is a map from file names to
optional contents, provider outcomes are a `FetchResult` value, and I/O
faults (unreadable entry, failed write) are injected through boolean-valued
fields of the environment.  `serve` returns the response, the cache left
behind, and how many times the provider was invoked during the call.
-/

namespace YTProxy

/-- Horizontal whitespace as used by `textwrap.dedent`'s regexes (`[ \t]`). -/
def isWs (c : Char) : Bool := c = ' ' || c = '\t'

/-- Split a character list into its lines, exactly like Python's
`str.split('\n')`: `n + 1` chunks for `n` newline characters. -/
def splitLines : List Char → List (List Char)
  | [] => [[]]
  | c :: rest =>
    if c = '\n' then [] :: splitLines rest
    else
      match splitLines rest with
      | [] => [[c]]
      | l :: ls => (c :: l) :: ls

/-- Inverse of `splitLines`: join lines with `'\n'` separators. -/
def joinLines : List (List Char) → List Char
  | [] => []
  | [l] => l
  | l :: l2 :: ls => l ++ '\n' :: joinLines (l2 :: ls)

/-- Step of `textwrap.dedent` that rewrites every line consisting solely of
`[ \t]+` to the empty line (`_whitespace_only_re.sub('', text)`). -/
def normalizeLine (l : List Char) : List Char :=
  if l ≠ [] ∧ (∀ c ∈ l, isWs c = true) then [] else l

/-- Leading run of horizontal whitespace of a line (the group captured by
`dedent`'s `_leading_whitespace_re`). -/
def leadingWs (l : List Char) : List Char := l.takeWhile isWs

/-- Longest common starting run of two character lists; `dedent`'s margin
computation folds this over the indents of all non-blank lines. -/
def commonStart : List Char → List Char → List Char
  | [], _ => []
  | _ :: _, [] => []
  | a :: as, b :: bs => if a = b then a :: commonStart as bs else []

/-- Margin of `textwrap.dedent`: the longest common leading whitespace of all
lines that contain a non-whitespace character (after blank-line
normalization a line has such a character iff it is non-empty). -/
def marginOf (lines : List (List Char)) : List Char :=
  match lines.filterMap (fun l => if l = [] then none else some (leadingWs l)) with
  | [] => []
  | i :: is => is.foldl commonStart i

/-- Removal step of `textwrap.dedent`: `re.sub('(?m)^' + margin, '', text)`
drops the margin from every line that starts with it (a no-op when the
margin is empty). -/
def stripMargin (m l : List Char) : List Char :=
  if m ≠ [] ∧ m <+: l then l.drop m.length else l

/-- Python's `textwrap.dedent` on a character list: normalize blank lines,
compute the common margin of the remaining lines, strip it everywhere. -/
def dedent (s : List Char) : List Char :=
  let lines := (splitLines s).map normalizeLine
  joinLines (lines.map (stripMargin (marginOf lines)))

/-- Decimal digit character for `d % 10`-style values. -/
def digitChar (d : Nat) : Char :=
  match d with
  | 0 => '0' | 1 => '1' | 2 => '2' | 3 => '3' | 4 => '4'
  | 5 => '5' | 6 => '6' | 7 => '7' | 8 => '8' | _ => '9'

/-- Decimal digits of a natural number, most significant first. -/
def natDigitsAux (fuel n : Nat) (acc : List Char) : List Char :=
  match fuel with
  | 0 => acc
  | fuel + 1 =>
    if n < 10 then digitChar n :: acc
    else natDigitsAux fuel (n / 10) (digitChar (n % 10) :: acc)

/-- Decimal representation of a natural number (at least one digit). -/
def natDigits (n : Nat) : List Char := natDigitsAux n n []

/-- Round `10 · x` to the nearest integer, ties to even — the rounding
Python's fixed-point formatting with one fractional digit performs.
Computed on the numerator and denominator with integer arithmetic:
`10 · x = n / d` with `d > 0`, floor quotient `f` and remainder `r` in
`[0, d)`; the fractional part is below, above or exactly one half according
to how `2 · r` compares with `d`. -/
def rne10 (x : ℚ) : ℤ :=
  let n := x.num * 10
  let d := Int.ofNat x.den
  let f := Int.ediv n d
  let r := Int.emod n d
  if 2 * r < d then f
  else if d < 2 * r then f + 1
  else if Int.emod f 2 = 0 then f else f + 1

/-- Left-pad with `'0'` to the requested width, like a `0`-filled field. -/
def padZeros (w : Nat) (s : List Char) : List Char :=
  List.replicate (w - s.length) '0' ++ s

/-- Python `f"{q:06.1f}"`: one fractional digit obtained by
round-half-to-even, zero-padded to a total width of six characters
(the sign, when present, precedes the zero padding; a negative value
rounding to zero keeps its sign, as Python's negative zero does — the
sign test `q.num < 0` is `q < 0` since denominators are positive). -/
def fmtStart (q : ℚ) : List Char :=
  if rne10 q < 0 ∨ (q.num < 0 ∧ rne10 q = 0) then
    '-' :: padZeros 5 (natDigits ((- rne10 q).toNat / 10) ++
      '.' :: [digitChar ((- rne10 q).toNat % 10)])
  else
    padZeros 6 (natDigits ((rne10 q).toNat / 10) ++
      '.' :: [digitChar ((rne10 q).toNat % 10)])

/-- One timed transcript segment, as delivered by the provider.  The start
offset (a Python float in the source) is modelled as a rational. -/
structure Segment where
  start : ℚ
  text : String
deriving DecidableEq

/-- One rendered transcript line: `f"{s['start']:06.1f}  {s['text']}"`. -/
def segLine (s : Segment) : List Char :=
  fmtStart s.start ++ ' ' :: ' ' :: s.text.data

/-- The `body` variable of `html_template`:
`"\n".join(f"{s['start']:06.1f}  {s['text']}" for s in transcript)`. -/
def renderBody (t : List Segment) : List Char :=
  joinLines (t.map segLine)

/-- Template chunk before the title (the f-string's opening through
`<title>Transcript – `). -/
def tplA : List Char :=
  "\n        <!doctype html>\n        <html lang=\"en\">  \n        <meta charset=\"utf-8\">  \n        <title>Transcript – ".data

/-- Template chunk closing the title element. -/
def tplB : List Char := "</title>  ".data

/-- Start of the canonical-link line, up to the `href` attribute value. -/
def linkPre : List Char := "        <link rel=\"canonical\" href=\"".data

/-- The canonical video URL up to the identifier. -/
def urlBase : List Char := "https://youtube.com/watch?v=".data

/-- Template chunk closing the canonical-link element. -/
def tplD : List Char := "\">  ".data

/-- Template chunk holding the style element and opening the `<h1>`. -/
def tplE : List Char :=
  "        <style>body\x7bfont:16px/1.5 system-ui\x7d pre\x7bwhite-space:pre-wrap\x7d</style>  \n        <h1>".data

/-- Template chunk closing the `<h1>`. -/
def tplF : List Char := "</h1>  ".data

/-- Template chunk opening the preformatted transcript block. -/
def tplG : List Char := "        <pre id=transcript>".data

/-- Template chunk closing the preformatted transcript block. -/
def tplH : List Char := "</pre>  ".data

/-- Template tail: the `</html>` line and the indent preceding the closing
quotes of the f-string. -/
def tplI : List Char := "        </html>  \n        ".data

/-- The f-string of `html_template` before `textwrap.dedent`, with the title,
identifier and rendered body spliced in. -/
def rawPage (title body vid : List Char) : List Char :=
  tplA ++ title ++ tplB ++ '\n' :: (linkPre ++ urlBase ++ vid ++ tplD) ++
    '\n' :: tplE ++ title ++ tplF ++ '\n' :: (tplG ++ body ++ tplH) ++ '\n' :: tplI

/-- Character-list form of the rendered page: splice title, rendered body and
identifier into the template and apply `textwrap.dedent`. -/
def htmlPage (title : List Char) (transcript : List Segment) (vid : List Char) : List Char :=
  dedent (rawPage title (renderBody transcript) vid)

/-- Source `html_template(title, transcript, video_id)`: render each segment,
splice everything into the page template and apply `textwrap.dedent`. -/
def html_template (title : String) (transcript : List Segment) (video_id : String) : String :=
  String.mk (htmlPage title.data transcript video_id.data)

/-- Outcome of `YouTubeTranscriptApi.get_transcript`: a transcript, one of the
two "no transcript" exceptions (`TranscriptsDisabled`, `NoTranscriptFound`,
carrying their `str(e)` message), or any other exception. -/
inductive FetchResult where
  | ok (transcript : List Segment)
  | transcriptsDisabled (msg : String)
  | noTranscriptFound (msg : String)
  | otherError (msg : String)
deriving DecidableEq

/-- An HTTP response as observed by the client: status code and body (for the
error branches the body is the `HTTPException` detail message). -/
structure Response where
  status : Nat
  body : String
deriving DecidableEq

/-- Environment of one request: the provider, the cache directory contents
(file name to contents), and injected I/O faults — `readFails k` makes the
read of an existing entry `k` raise, `writeFails k` makes `write_text`
raise. -/
structure Env where
  provider : String → FetchResult
  cache : String → Option String
  readFails : String → Bool
  writeFails : String → Bool

/-- Result of one `serve_transcript` call: the response, the cache contents
afterwards, and the number of provider invocations performed. -/
structure ServeOutcome where
  response : Response
  cache : String → Option String
  providerCalls : Nat

/-- The cache file name: `CACHE_DIR / f"{video_id}.html"`, i.e. the raw
identifier with an `.html` suffix. -/
def cacheKey (video_id : String) : String := video_id ++ ".html"

/-- The fetch-render-write path of `serve_transcript` (lines 63–77 of the
source): call the provider, on success render with the generated title,
attempt the best-effort cache write, and return the page; map
`TranscriptsDisabled` / `NoTranscriptFound` to 404 and any other error to
500, writing nothing in either failure case. -/
def fetchAndRender (env : Env) (video_id : String) : ServeOutcome :=
  match env.provider video_id with
  | .ok transcript =>
    let html := html_template ("YouTube Video " ++ video_id) transcript video_id
    { response := ⟨200, html⟩
      cache :=
        if env.writeFails (cacheKey video_id) then env.cache
        else fun k => if k = cacheKey video_id then some html else env.cache k
      providerCalls := 1 }
  | .transcriptsDisabled msg =>
    { response := ⟨404, "No transcript found: " ++ msg⟩
      cache := env.cache
      providerCalls := 1 }
  | .noTranscriptFound msg =>
    { response := ⟨404, "No transcript found: " ++ msg⟩
      cache := env.cache
      providerCalls := 1 }
  | .otherError msg =>
    { response := ⟨500, "Internal server error: " ++ msg⟩
      cache := env.cache
      providerCalls := 1 }

/-- Source `serve_transcript(video_id)`: if the cache file exists and is
readable, return its bytes as `200` without touching the provider; if it
exists but the read raises, fall through; otherwise fetch, render and
write through via `fetchAndRender`. -/
def serve (env : Env) (video_id : String) : ServeOutcome :=
  match env.cache (cacheKey video_id) with
  | some page =>
    if env.readFails (cacheKey video_id) then fetchAndRender env video_id
    else { response := ⟨200, page⟩, cache := env.cache, providerCalls := 0 }
  | none => fetchAndRender env video_id

/-!
Concrete environments used by the witness theorems.
-/

/-- The specification's example transcript. -/
def tEx : List Segment := [⟨0, "Hello"⟩, ⟨61.25, "World"⟩]

/-- Contents of a pre-existing cache entry. -/
def cachedPage : String := "<html>cached</html>"

/-- An entry for `vid1` is cached; the provider would fail if consulted. -/
def envHit : Env :=
  { provider := fun _ => .otherError "network unreachable"
    cache := fun k => if k = "vid1.html" then some cachedPage else none
    readFails := fun _ => false
    writeFails := fun _ => false }

/-- Empty cache, healthy provider and disk. -/
def envMiss : Env :=
  { provider := fun _ => .ok tEx
    cache := fun _ => none
    readFails := fun _ => false
    writeFails := fun _ => false }

/-- Empty cache; the provider reports transcripts disabled. -/
def envDisabled : Env :=
  { provider := fun _ => .transcriptsDisabled "Subtitles are disabled for this video"
    cache := fun _ => none
    readFails := fun _ => false
    writeFails := fun _ => false }

/-- Empty cache; the provider fails with a network error. -/
def envDown : Env :=
  { provider := fun _ => .otherError "connection reset"
    cache := fun _ => none
    readFails := fun _ => false
    writeFails := fun _ => false }

/-- Empty cache on a read-only directory: every write fails. -/
def envReadOnly : Env :=
  { provider := fun _ => .ok tEx
    cache := fun _ => none
    readFails := fun _ => false
    writeFails := fun _ => true }

/-- An entry for `vid1` exists but every read of it fails. -/
def envCorrupt : Env :=
  { provider := fun _ => .ok tEx
    cache := fun k => if k = "vid1.html" then some cachedPage else none
    readFails := fun _ => true
    writeFails := fun _ => false }

/-!
Claim theorems about `serve`.
-/

/-- C1: with an existing, readable cache entry for `v`, `serve v` answers
`200` with exactly the cached bytes, does not invoke the provider, and a
second call on the resulting cache returns the byte-identical `200`
response, again without invoking the provider. -/
theorem cache_hit_idempotent (env : Env) (v page : String)
    (hc : env.cache (cacheKey v) = some page)
    (hr : env.readFails (cacheKey v) = false) :
    (serve env v).response = ⟨200, page⟩ ∧
    (serve env v).providerCalls = 0 ∧
    (serve { env with cache := (serve env v).cache } v).response = ⟨200, page⟩ ∧
    (serve { env with cache := (serve env v).cache } v).providerCalls = 0 := by
  have h1 : serve env v = ⟨⟨200, page⟩, env.cache, 0⟩ := by
    simp [serve, hc, hr]
  have h2 : ({ env with cache := (serve env v).cache } : Env) = env := by
    rw [h1]
  rw [h2, h1]
  exact ⟨rfl, rfl, rfl, rfl⟩

/-- Closed instance of `cache_hit_idempotent` on `envHit`. -/
theorem cache_hit_idempotent_witness :
    (serve envHit "vid1").response = ⟨200, cachedPage⟩ ∧
    (serve envHit "vid1").providerCalls = 0 ∧
    (serve { envHit with cache := (serve envHit "vid1").cache } "vid1").response
      = ⟨200, cachedPage⟩ ∧
    (serve { envHit with cache := (serve envHit "vid1").cache } "vid1").providerCalls = 0 :=
  cache_hit_idempotent envHit "vid1" cachedPage (by decide) rfl

/-- C3: when the request reaches the provider (no entry, or an unreadable
one) and the provider reports a disabled or missing transcript, `serve`
answers `404` with the `No transcript found:` message carrying the
provider's reported reason, and the cache is left exactly as it was. -/
theorem missing_transcript_404 (env : Env) (v msg : String)
    (hfetch : env.cache (cacheKey v) = none ∨ env.readFails (cacheKey v) = true)
    (hp : env.provider v = .transcriptsDisabled msg ∨
      env.provider v = .noTranscriptFound msg) :
    (serve env v).response.status = 404 ∧
    (serve env v).response.body = "No transcript found: " ++ msg ∧
    (serve env v).cache = env.cache := by
  have h0 : serve env v = fetchAndRender env v := by
    rcases hfetch with h | h
    · simp [serve, h]
    · cases hc : env.cache (cacheKey v) <;> simp [serve, hc, h]
  rcases hp with hp | hp <;> simp [h0, fetchAndRender, hp]

/-- Closed instance of `missing_transcript_404` on `envDisabled`. -/
theorem missing_transcript_404_witness :
    (serve envDisabled "vid2").response.status = 404 ∧
    (serve envDisabled "vid2").response.body
      = "No transcript found: " ++ "Subtitles are disabled for this video" ∧
    (serve envDisabled "vid2").cache = envDisabled.cache :=
  missing_transcript_404 envDisabled "vid2" "Subtitles are disabled for this video"
    (Or.inl rfl) (Or.inl rfl)

/-- C4: when the cache reports an entry for `v` but reading it fails, `serve`
does not error out: it runs exactly the fetch-render-write path
`fetchAndRender`, the same path a cache miss runs, and produces the same
response a genuine miss would. -/
theorem cache_read_failure_falls_through (env : Env) (v page : String)
    (hc : env.cache (cacheKey v) = some page)
    (hr : env.readFails (cacheKey v) = true) :
    serve env v = fetchAndRender env v ∧
    serve { env with cache := fun k => if k = cacheKey v then none else env.cache k } v
      = fetchAndRender
          { env with cache := fun k => if k = cacheKey v then none else env.cache k } v ∧
    (serve env v).response
      = (serve { env with cache := fun k => if k = cacheKey v then none else env.cache k }
          v).response := by
  have h1 : serve env v = fetchAndRender env v := by
    simp [serve, hc, hr]
  have h2 : serve { env with cache := fun k => if k = cacheKey v then none else env.cache k } v
      = fetchAndRender
          { env with cache := fun k => if k = cacheKey v then none else env.cache k } v := by
    simp [serve]
  refine ⟨h1, h2, ?_⟩
  rw [h1, h2]
  cases hpv : env.provider v <;> simp [fetchAndRender, hpv]

/-- Closed instance of `cache_read_failure_falls_through` on `envCorrupt`. -/
theorem cache_read_failure_falls_through_witness :
    serve envCorrupt "vid1" = fetchAndRender envCorrupt "vid1" ∧
    serve { envCorrupt with
        cache := fun k => if k = cacheKey "vid1" then none else envCorrupt.cache k } "vid1"
      = fetchAndRender { envCorrupt with
          cache := fun k => if k = cacheKey "vid1" then none else envCorrupt.cache k } "vid1" ∧
    (serve envCorrupt "vid1").response
      = (serve { envCorrupt with
          cache := fun k => if k = cacheKey "vid1" then none else envCorrupt.cache k }
          "vid1").response :=
  cache_read_failure_falls_through envCorrupt "vid1" cachedPage (by decide) rfl

/-- C5: on a cache miss with a healthy disk, a successful (non-empty)
provider transcript yields a `200`, one provider call, a cache entry now
present for `v`, and a second call answers the identical response from the
cache without consulting the provider. -/
theorem cache_population (env : Env) (v : String) (t : List Segment)
    (hmiss : env.cache (cacheKey v) = none)
    (hp : env.provider v = .ok t) (hne : t ≠ [])
    (hw : env.writeFails (cacheKey v) = false)
    (hr : env.readFails (cacheKey v) = false) :
    ((serve env v).cache (cacheKey v)).isSome = true ∧
    (serve env v).response.status = 200 ∧
    (serve env v).providerCalls = 1 ∧
    (serve { env with cache := (serve env v).cache } v).response = (serve env v).response ∧
    (serve { env with cache := (serve env v).cache } v).providerCalls = 0 := by
  have h1 : serve env v = ⟨⟨200, html_template ("YouTube Video " ++ v) t v⟩,
      fun k => if k = cacheKey v then some (html_template ("YouTube Video " ++ v) t v)
        else env.cache k, 1⟩ := by
    simp [serve, hmiss, fetchAndRender, hp, hw]
  rw [h1]
  refine ⟨by simp, rfl, rfl, ?_, ?_⟩ <;> simp [serve, hr]

/-- Closed instance of `cache_population` on `envMiss`. -/
theorem cache_population_witness :
    ((serve envMiss "vid2").cache (cacheKey "vid2")).isSome = true ∧
    (serve envMiss "vid2").response.status = 200 ∧
    (serve envMiss "vid2").providerCalls = 1 ∧
    (serve { envMiss with cache := (serve envMiss "vid2").cache } "vid2").response
      = (serve envMiss "vid2").response ∧
    (serve { envMiss with cache := (serve envMiss "vid2").cache } "vid2").providerCalls = 0 :=
  cache_population envMiss "vid2" tEx rfl rfl (by simp [tEx]) rfl rfl

/-- C6: when the request reaches the provider and the provider fails with
anything other than the two "no transcript" conditions, `serve` answers
`500` with the `Internal server error:` message describing the failure,
and the cache is left exactly as it was. -/
theorem provider_error_500 (env : Env) (v msg : String)
    (hfetch : env.cache (cacheKey v) = none ∨ env.readFails (cacheKey v) = true)
    (hp : env.provider v = .otherError msg) :
    (serve env v).response.status = 500 ∧
    (serve env v).response.body = "Internal server error: " ++ msg ∧
    (serve env v).cache = env.cache := by
  have h0 : serve env v = fetchAndRender env v := by
    rcases hfetch with h | h
    · simp [serve, h]
    · cases hc : env.cache (cacheKey v) <;> simp [serve, hc, h]
  simp [h0, fetchAndRender, hp]

/-- Closed instance of `provider_error_500` on `envDown`. -/
theorem provider_error_500_witness :
    (serve envDown "vid3").response.status = 500 ∧
    (serve envDown "vid3").response.body = "Internal server error: " ++ "connection reset" ∧
    (serve envDown "vid3").cache = envDown.cache :=
  provider_error_500 envDown "vid3" "connection reset" (Or.inl rfl) rfl

/-- C7: when the provider succeeds but the cache write fails, `serve` still
answers `200` with the rendered page and the cache is unchanged; moreover
the response never depends on the write outcome at all. -/
theorem write_failure_resilience (env : Env) (v : String) (t : List Segment)
    (hfetch : env.cache (cacheKey v) = none ∨ env.readFails (cacheKey v) = true)
    (hp : env.provider v = .ok t)
    (hw : env.writeFails (cacheKey v) = true) :
    (serve env v).response = ⟨200, html_template ("YouTube Video " ++ v) t v⟩ ∧
    (serve env v).cache = env.cache ∧
    ∀ w2 : String → Bool,
      (serve { env with writeFails := w2 } v).response = (serve env v).response := by
  have h0 : serve env v = fetchAndRender env v := by
    rcases hfetch with h | h
    · simp [serve, h]
    · cases hc : env.cache (cacheKey v) <;> simp [serve, hc, h]
  refine ⟨by simp [h0, fetchAndRender, hp], by simp [h0, fetchAndRender, hp, hw], ?_⟩
  intro w2
  have h0b : serve { env with writeFails := w2 } v
      = fetchAndRender { env with writeFails := w2 } v := by
    rcases hfetch with h | h
    · simp [serve, h]
    · cases hc : env.cache (cacheKey v) <;> simp [serve, hc, h]
  rw [h0, h0b]
  simp [fetchAndRender, hp]

/-- Closed instance of `write_failure_resilience` on `envReadOnly`. -/
theorem write_failure_resilience_witness :
    (serve envReadOnly "vid4").response
      = ⟨200, html_template ("YouTube Video " ++ "vid4") tEx "vid4"⟩ ∧
    (serve envReadOnly "vid4").cache = envReadOnly.cache ∧
    ∀ w2 : String → Bool,
      (serve { envReadOnly with writeFails := w2 } "vid4").response
        = (serve envReadOnly "vid4").response :=
  write_failure_resilience envReadOnly "vid4" tEx (Or.inl rfl) rfl rfl

/-- C9: the identifier is used verbatim on both sides: the cache file name is
the raw identifier suffixed with `.html`, no other cache key is ever
touched, and the provider's behaviour matters only at the identifier
itself — no validation or sanitization intervenes. -/
theorem identifier_used_verbatim (env : Env) (v : String) :
    cacheKey v = v ++ ".html" ∧
    (∀ k, k ≠ cacheKey v → (serve env v).cache k = env.cache k) ∧
    (∀ p2 : String → FetchResult, p2 v = env.provider v →
      serve { env with provider := p2 } v = serve env v) := by
  refine ⟨rfl, ?_, ?_⟩
  · intro k hk
    have hfr : ∀ e : Env, (fetchAndRender e v).cache k = e.cache k := by
      intro e
      cases hpv : e.provider v <;> simp only [fetchAndRender, hpv]
      · split
        · rfl
        · simp [hk]
    cases hc : env.cache (cacheKey v)
    · simp [serve, hc, hfr]
    · by_cases hr : env.readFails (cacheKey v) = true <;> simp [serve, hc, hr, hfr]
  · intro p2 hp2
    have hfr : fetchAndRender { env with provider := p2 } v = fetchAndRender env v := by
      cases hpv : env.provider v <;> simp [fetchAndRender, hp2, hpv]
    cases hc : env.cache (cacheKey v)
    · simp [serve, hc, hfr]
    · by_cases hr : env.readFails (cacheKey v) = true <;> simp [serve, hc, hr, hfr]

/-- Closed instance of `identifier_used_verbatim` at a traversal-shaped
identifier, on `envMiss`. -/
theorem identifier_used_verbatim_witness :
    cacheKey "../etc/x" = "../etc/x" ++ ".html" ∧
    (serve envMiss "../etc/x").cache "other.html" = envMiss.cache "other.html" ∧
    serve { envMiss with provider := fun _ => .ok tEx } "../etc/x" = serve envMiss "../etc/x" :=
  ⟨(identifier_used_verbatim envMiss "../etc/x").1,
   (identifier_used_verbatim envMiss "../etc/x").2.1 "other.html" (by decide),
   (identifier_used_verbatim envMiss "../etc/x").2.2 (fun _ => .ok tEx) rfl⟩

/-- C10: when the provider succeeds and the write succeeds, the bytes now
stored under the identifier's cache key are exactly the bytes of the `200`
response body of that same request. -/
theorem write_through_consistency (env : Env) (v : String) (t : List Segment)
    (hfetch : env.cache (cacheKey v) = none ∨ env.readFails (cacheKey v) = true)
    (hp : env.provider v = .ok t)
    (hw : env.writeFails (cacheKey v) = false) :
    (serve env v).response.status = 200 ∧
    (serve env v).cache (cacheKey v) = some (serve env v).response.body := by
  have h0 : serve env v = fetchAndRender env v := by
    rcases hfetch with h | h
    · simp [serve, h]
    · cases hc : env.cache (cacheKey v) <;> simp [serve, hc, h]
  simp [h0, fetchAndRender, hp, hw]

/-- Closed instance of `write_through_consistency` on `envMiss`. -/
theorem write_through_consistency_witness :
    (serve envMiss "vid5").response.status = 200 ∧
    (serve envMiss "vid5").cache (cacheKey "vid5") = some (serve envMiss "vid5").response.body :=
  write_through_consistency envMiss "vid5" tEx (Or.inl rfl) rfl rfl

/-!
Line structure of `splitLines` / `joinLines`, and how `dedent` interacts
with substrings that sit strictly inside a line, after a non-whitespace
character.  `dedent` only deletes characters at line starts (the margin)
and the contents of blank lines, so such substrings survive it.
-/

/-- Character view of the rendered page. -/
theorem html_template_data (title : String) (t : List Segment) (vid : String) :
    (html_template title t vid).data = htmlPage title.data t vid.data := by
  unfold html_template
  rfl

/-- splitLines always produces at least one chunk. -/
theorem splitLines_ne_nil : ∀ s : List Char, splitLines s ≠ []
  | [] => by simp [splitLines]
  | c :: rest => by
    simp only [splitLines]
    split
    · simp
    · split <;> simp

/-- splitLines distributes over a newline at a known position. -/
theorem splitLines_append (X Y : List Char) :
    splitLines (X ++ '\n' :: Y) = splitLines X ++ splitLines Y := by
  induction X with
  | nil => simp [splitLines]
  | cons c X' ih =>
    by_cases hc : c = '\n'
    · subst hc
      simp [splitLines, ih]
    · obtain ⟨l, ls, hX⟩ : ∃ l ls, splitLines X' = l :: ls := by
        cases h : splitLines X' with
        | nil => exact absurd h (splitLines_ne_nil X')
        | cons l ls => exact ⟨l, ls, rfl⟩
      rw [List.cons_append]
      simp only [splitLines, if_neg hc, ih, hX]
      rfl

/-- A newline-free list is a single line. -/
theorem splitLines_no_nl : ∀ L : List Char, '\n' ∉ L → splitLines L = [L] := by
  intro L
  induction L with
  | nil => intro _; rfl
  | cons c L' ih =>
    intro h
    have hc : ¬ c = '\n' := fun hcc => h (by rw [hcc]; exact List.mem_cons_self _ _)
    simp only [splitLines, if_neg hc, ih (fun hm => h (List.mem_cons_of_mem _ hm))]

/-- An infix of a member line is an infix of the joined lines. -/
theorem joinLines_infix_of_mem {M L : List Char} :
    ∀ {ls : List (List Char)}, L ∈ ls → M <:+: L → M <:+: joinLines ls := by
  intro ls
  induction ls with
  | nil => intro h _; exact absurd h (List.not_mem_nil _)
  | cons a ls' ih =>
    intro hmem hML
    rcases List.mem_cons.mp hmem with rfl | hmem'
    · cases ls' with
      | nil => simpa [joinLines] using hML
      | cons b ls2 =>
        refine hML.trans ⟨[], '\n' :: joinLines (b :: ls2), ?_⟩
        simp [joinLines]
    · cases ls' with
      | nil => exact absurd hmem' (List.not_mem_nil _)
      | cons b ls2 =>
        refine (ih hmem' hML).trans ⟨a ++ ['\n'], [], ?_⟩
        simp [joinLines]

/-- The common starting run is a starting run of the left argument. -/
theorem commonStart_starts_left : ∀ a b : List Char, commonStart a b <+: a
  | [], _ => ⟨[], rfl⟩
  | _ :: _, [] => ⟨_, rfl⟩
  | a :: as, b :: bs => by
    simp only [commonStart]
    split
    · exact List.cons_prefix_cons.mpr ⟨rfl, commonStart_starts_left as bs⟩
    · exact ⟨a :: as, rfl⟩

/-- Folding `commonStart` only ever shrinks the accumulator. -/
theorem foldl_commonStart_starts : ∀ (is : List (List Char)) (i : List Char),
    is.foldl commonStart i <+: i := by
  intro is
  induction is with
  | nil => intro i; exact List.prefix_refl i
  | cons x is' ih =>
    intro i
    exact (ih (commonStart i x)).trans (commonStart_starts_left i x)

/-- The dedent margin consists of whitespace characters only. -/
theorem marginOf_ws (lines : List (List Char)) : ∀ c ∈ marginOf lines, isWs c = true := by
  intro c hc
  unfold marginOf at hc
  split at hc
  · exact absurd hc (List.not_mem_nil _)
  · next i is hf =>
    have hci : c ∈ i := (foldl_commonStart_starts is i).subset hc
    have hi : i ∈ lines.filterMap
        (fun l => if l = [] then none else some (leadingWs l)) := by
      rw [hf]
      exact List.mem_cons_self i is
    obtain ⟨l, -, hl⟩ := List.mem_filterMap.mp hi
    by_cases hln : l = []
    · rw [if_pos hln] at hl
      exact absurd hl (by simp)
    · rw [if_neg hln] at hl
      obtain rfl : leadingWs l = i := Option.some.inj hl
      exact List.mem_takeWhile_imp hci

/-- A whitespace-only starting run of `p1 ++ c :: r` with `c` non-whitespace
stays inside `p1`. -/
theorem ws_start_before_nonws (m : List Char) :
    ∀ (p1 : List Char) (c : Char) (r : List Char),
    (∀ x ∈ m, isWs x = true) → isWs c = false → m <+: p1 ++ c :: r → m <+: p1 := by
  induction m with
  | nil => intro p1 c r _ _ _; exact ⟨p1, rfl⟩
  | cons x m' ih =>
    intro p1 c r hm hc hp
    cases p1 with
    | nil =>
      rw [List.nil_append] at hp
      obtain ⟨rfl, -⟩ := List.cons_prefix_cons.mp hp
      rw [hm x (List.mem_cons_self _ _)] at hc
      exact absurd hc (by simp)
    | cons b p1' =>
      rw [List.cons_append] at hp
      obtain ⟨rfl, hp'⟩ := List.cons_prefix_cons.mp hp
      exact List.cons_prefix_cons.mpr
        ⟨rfl, ih p1' c r (fun y hy => hm y (List.mem_cons_of_mem _ hy)) hc hp'⟩

/-- Stripping a whitespace margin keeps any substring that sits after a
non-whitespace character of its line. -/
theorem stripMargin_keeps_mid {m L pre M post : List Char} {c : Char}
    (hm : ∀ x ∈ m, isWs x = true) (hL : L = pre ++ M ++ post)
    (hc : c ∈ pre) (hw : isWs c = false) :
    M <:+: stripMargin m L := by
  unfold stripMargin
  split
  · next h =>
    obtain ⟨-, hpre⟩ := h
    obtain ⟨p1, p2, rfl⟩ := List.append_of_mem hc
    have hL' : L = p1 ++ c :: (p2 ++ M ++ post) := by
      rw [hL]
      simp [List.append_assoc]
    have hmp1 : m <+: p1 :=
      ws_start_before_nonws m p1 c _ hm hw (hL' ▸ hpre)
    obtain ⟨p1', rfl⟩ := hmp1
    rw [hL', show m ++ p1' ++ c :: (p2 ++ M ++ post)
        = m ++ (p1' ++ c :: (p2 ++ M ++ post)) from by simp [List.append_assoc],
      List.drop_left]
    exact ⟨p1' ++ c :: p2, post, by simp [List.append_assoc]⟩
  · exact ⟨pre, post, by rw [hL]⟩

/-- Blank-line normalization keeps a line containing a non-whitespace
character. -/
theorem normalizeLine_eq_self {l : List Char} {c : Char}
    (hc : c ∈ l) (hw : isWs c = false) : normalizeLine l = l := by
  unfold normalizeLine
  rw [if_neg]
  rintro ⟨-, hall⟩
  rw [hall c hc] at hw
  exact absurd hw (by simp)

/-- Central preservation property of `textwrap.dedent`: a newline-free
substring of a line that is preceded, within its line, by some
non-whitespace character survives dedenting. -/
theorem dedent_keeps_midline (doc A L B pre M post : List Char) (c : Char)
    (hdoc : doc = A ++ '\n' :: (L ++ '\n' :: B))
    (hnl : '\n' ∉ L) (hL : L = pre ++ M ++ post)
    (hc : c ∈ pre) (hw : isWs c = false) :
    M <:+: dedent doc := by
  have hcL : c ∈ L := by
    rw [hL]
    exact List.mem_append_left _ (List.mem_append_left _ hc)
  have hmem0 : L ∈ splitLines doc := by
    rw [hdoc, splitLines_append A (L ++ '\n' :: B), splitLines_append L B,
      splitLines_no_nl L hnl]
    simp
  unfold dedent
  have hmem : L ∈ (splitLines doc).map normalizeLine :=
    List.mem_map.mpr ⟨L, hmem0, normalizeLine_eq_self hcL hw⟩
  exact joinLines_infix_of_mem
    (List.mem_map.mpr ⟨L, hmem, rfl⟩)
    (stripMargin_keeps_mid (marginOf_ws ((splitLines doc).map normalizeLine)) hL hc hw)

/-!
Character-level facts about the fixed-point formatting and segment lines.
-/

/-- Every character produced by `natDigitsAux` is a digit character or comes
from the accumulator. -/
theorem natDigitsAux_mem : ∀ (fuel n : Nat) (acc : List Char) (c : Char),
    c ∈ natDigitsAux fuel n acc → (∃ d, c = digitChar d) ∨ c ∈ acc := by
  intro fuel
  induction fuel with
  | zero => intro n acc c hc; exact Or.inr hc
  | succ fuel ih =>
    intro n acc c hc
    simp only [natDigitsAux] at hc
    split at hc
    · rcases List.mem_cons.mp hc with rfl | h
      · exact Or.inl ⟨n, rfl⟩
      · exact Or.inr h
    · rcases ih (n / 10) (digitChar (n % 10) :: acc) c hc with h | h
      · exact Or.inl h
      · rcases List.mem_cons.mp h with rfl | h2
        · exact Or.inl ⟨n % 10, rfl⟩
        · exact Or.inr h2

/-- Digit characters are neither newlines nor horizontal whitespace. -/
theorem digitChar_plain (d : Nat) : digitChar d ≠ '\n' ∧ isWs (digitChar d) = false := by
  rcases d with _ | _ | _ | _ | _ | _ | _ | _ | _ | d
  case succ =>
    exact ⟨(by decide : ('9' : Char) ≠ '\n'), (by decide : isWs '9' = false)⟩
  all_goals exact ⟨by decide, by decide⟩

/-- No newline occurs in a zero-padded digits-dot-digit block. -/
theorem no_nl_pad (w a b : Nat) :
    '\n' ∉ padZeros w (natDigits a ++ '.' :: [digitChar b]) := by
  intro h
  unfold padZeros at h
  rcases List.mem_append.mp h with h | h
  · exact absurd (List.eq_of_mem_replicate h) (by decide)
  · rcases List.mem_append.mp h with h | h
    · rcases natDigitsAux_mem a a [] '\n' h with ⟨d, hd⟩ | h2
      · exact (digitChar_plain d).1 hd.symm
      · exact absurd h2 (List.not_mem_nil _)
    · rcases List.mem_cons.mp h with h | h
      · exact absurd h (by decide)
      · rcases List.mem_cons.mp h with h | h
        · exact (digitChar_plain b).1 h.symm
        · exact absurd h (List.not_mem_nil _)

/-- The formatted start offset never contains a newline. -/
theorem fmtStart_no_nl (q : ℚ) : '\n' ∉ fmtStart q := by
  unfold fmtStart
  intro hmem
  split at hmem
  · rcases List.mem_cons.mp hmem with h | h
    · exact absurd h (by decide)
    · exact no_nl_pad 5 _ _ h
  · exact no_nl_pad 6 _ _ hmem

/-- The formatted start offset always contains the decimal point. -/
theorem fmtStart_has_dot (q : ℚ) : '.' ∈ fmtStart q := by
  have hin : ∀ w a b, '.' ∈ padZeros w (natDigits a ++ '.' :: [digitChar b]) := by
    intro w a b
    unfold padZeros
    exact List.mem_append_right _ (List.mem_append_right _ (List.mem_cons_self _ _))
  unfold fmtStart
  split
  · exact List.mem_cons_of_mem _ (hin 5 _ _)
  · exact hin 6 _ _

/-- A segment line is newline-free whenever its text is. -/
theorem segLine_no_nl {s : Segment} (h : '\n' ∉ s.text.data) : '\n' ∉ segLine s := by
  intro hm
  unfold segLine at hm
  rcases List.mem_append.mp hm with h1 | h1
  · exact fmtStart_no_nl _ h1
  · rcases List.mem_cons.mp h1 with h2 | h2
    · exact absurd h2 (by decide)
    · rcases List.mem_cons.mp h2 with h3 | h3
      · exact absurd h3 (by decide)
      · exact h h3

/-- A member line of a join is flanked by newline boundaries (or the ends). -/
theorem joinLines_mem_decomp : ∀ (ls : List (List Char)) (l : List Char), l ∈ ls →
    ∃ pre post, joinLines ls = pre ++ l ++ post ∧
      (pre = [] ∨ ∃ pre2, pre = pre2 ++ ['\n']) ∧
      (post = [] ∨ ∃ post2, post = '\n' :: post2) := by
  intro ls
  induction ls with
  | nil => intro l h; exact absurd h (List.not_mem_nil _)
  | cons a ls' ih =>
    intro l hmem
    rcases List.mem_cons.mp hmem with rfl | hmem'
    · cases ls' with
      | nil => exact ⟨[], [], by simp [joinLines], Or.inl rfl, Or.inl rfl⟩
      | cons b ls2 =>
        exact ⟨[], '\n' :: joinLines (b :: ls2), by simp [joinLines], Or.inl rfl,
          Or.inr ⟨joinLines (b :: ls2), rfl⟩⟩
    · cases ls' with
      | nil => exact absurd hmem' (List.not_mem_nil _)
      | cons b ls2 =>
        obtain ⟨pre, post, heq, hpre, hpost⟩ := ih l hmem'
        refine ⟨a ++ '\n' :: pre, post, ?_, Or.inr ?_, hpost⟩
        · show a ++ '\n' :: joinLines (b :: ls2) = _
          rw [heq]
          simp [List.append_assoc]
        · rcases hpre with rfl | ⟨pre2, rfl⟩
          · exact ⟨a, by simp⟩
          · exact ⟨a ++ '\n' :: pre2, by simp⟩

/-- The canonical-link URL, with the raw identifier spliced in, survives into
the dedented document for every newline-free identifier. -/
theorem canonical_link_present (title vid : String) (t : List Segment)
    (hnl : '\n' ∉ vid.data) :
    (urlBase ++ vid.data) <:+: (html_template title t vid).data := by
  rw [html_template_data]
  unfold htmlPage
  refine dedent_keeps_midline _
    (tplA ++ title.data ++ tplB)
    (linkPre ++ (urlBase ++ vid.data) ++ tplD)
    (tplE ++ title.data ++ tplF ++ '\n' :: (tplG ++ renderBody t ++ tplH) ++ '\n' :: tplI)
    linkPre (urlBase ++ vid.data) tplD '<'
    ?_ ?_ rfl (by decide) (by decide)
  · simp [rawPage, List.append_assoc]
  · intro hm
    rcases List.mem_append.mp hm with h1 | h1
    · rcases List.mem_append.mp h1 with h2 | h2
      · exact absurd h2 (by decide)
      · rcases List.mem_append.mp h2 with h3 | h3
        · exact absurd h3 (by decide)
        · exact hnl h3
    · exact absurd h1 (by decide)

/-- C8 (amended): segment text is embedded into the rendered document with no
HTML escaping whatsoever — any newline-free segment text appears verbatim,
HTML-significant characters included; it sits strictly inside its line,
after the non-whitespace characters of the formatted offset or of the
`pre` tag, so the final `textwrap.dedent` pass cannot touch it.  (Texts
containing newlines are the amendment: dedent may alter leading whitespace
of their continuation lines, see the counterexample.) -/
theorem segment_text_midline (title vid : String) (t : List Segment) (s : Segment)
    (hs : s ∈ t) (hnl : '\n' ∉ s.text.data) :
    s.text.data <:+: (html_template title t vid).data := by
  obtain ⟨pre, post, hbody, hpre, hpost⟩ :=
    joinLines_mem_decomp (t.map segLine) (segLine s) (List.mem_map_of_mem segLine hs)
  have hbody' : renderBody t = pre ++ segLine s ++ post := hbody
  rw [html_template_data]
  unfold htmlPage
  have hLnl : ∀ x ∈ segLine s ++ tplH, ¬ x = '\n' := by
    intro x hx hxe
    subst hxe
    rcases List.mem_append.mp hx with h1 | h1
    · exact segLine_no_nl hnl h1
    · exact absurd h1 (by decide)
  rcases hpre with rfl | ⟨pre2, rfl⟩ <;> rcases hpost with rfl | ⟨post2, rfl⟩
  · refine dedent_keeps_midline _
      (tplA ++ title.data ++ tplB ++ '\n' :: (linkPre ++ urlBase ++ vid.data ++ tplD)
        ++ '\n' :: tplE ++ title.data ++ tplF)
      (tplG ++ segLine s ++ tplH) tplI
      (tplG ++ fmtStart s.start ++ [' ', ' ']) s.text.data tplH '<'
      ?_ ?_ ?_ ?_ (by decide)
    · simp [rawPage, hbody', List.append_assoc]
    · intro hm
      rcases List.mem_append.mp hm with h1 | h1
      · rcases List.mem_append.mp h1 with h2 | h2
        · exact absurd h2 (by decide)
        · exact hLnl '\n' (List.mem_append_left _ h2) rfl
      · exact absurd h1 (by decide)
    · simp [segLine, List.append_assoc]
    · exact List.mem_append_left _ (List.mem_append_left _ (by decide))
  · refine dedent_keeps_midline _
      (tplA ++ title.data ++ tplB ++ '\n' :: (linkPre ++ urlBase ++ vid.data ++ tplD)
        ++ '\n' :: tplE ++ title.data ++ tplF)
      (tplG ++ segLine s) (post2 ++ tplH ++ '\n' :: tplI)
      (tplG ++ fmtStart s.start ++ [' ', ' ']) s.text.data [] '<'
      ?_ ?_ ?_ ?_ (by decide)
    · simp [rawPage, hbody', List.append_assoc]
    · intro hm
      rcases List.mem_append.mp hm with h1 | h1
      · exact absurd h1 (by decide)
      · exact hLnl '\n' (List.mem_append_left _ h1) rfl
    · simp [segLine, List.append_assoc]
    · exact List.mem_append_left _ (List.mem_append_left _ (by decide))
  · refine dedent_keeps_midline _
      ((tplA ++ title.data ++ tplB ++ '\n' :: (linkPre ++ urlBase ++ vid.data ++ tplD)
        ++ '\n' :: tplE ++ title.data ++ tplF) ++ '\n' :: (tplG ++ pre2))
      (segLine s ++ tplH) tplI
      (fmtStart s.start ++ [' ', ' ']) s.text.data tplH '.'
      ?_ ?_ ?_ ?_ (by decide)
    · simp [rawPage, hbody', List.append_assoc]
    · intro hm
      exact hLnl '\n' hm rfl
    · simp [segLine, List.append_assoc]
    · exact List.mem_append_left _ (fmtStart_has_dot s.start)
  · refine dedent_keeps_midline _
      ((tplA ++ title.data ++ tplB ++ '\n' :: (linkPre ++ urlBase ++ vid.data ++ tplD)
        ++ '\n' :: tplE ++ title.data ++ tplF) ++ '\n' :: (tplG ++ pre2))
      (segLine s) (post2 ++ tplH ++ '\n' :: tplI)
      (fmtStart s.start ++ [' ', ' ']) s.text.data [] '.'
      ?_ ?_ ?_ ?_ (by decide)
    · simp [rawPage, hbody', List.append_assoc]
    · intro hm
      exact hLnl '\n' (List.mem_append_left _ hm) rfl
    · simp [segLine, List.append_assoc]
    · exact List.mem_append_left _ (fmtStart_has_dot s.start)

/-- Closed instance of `segment_text_midline`: a text full of
HTML-significant characters appears verbatim, unescaped, in the rendered
document. -/
theorem segment_text_midline_witness :
    "<script>alert(1)</script>".data <:+:
      (html_template "YouTube Video vid9" [⟨0, "<script>alert(1)</script>"⟩] "vid9").data :=
  segment_text_midline "YouTube Video vid9" "vid9" [⟨0, "<script>alert(1)</script>"⟩]
    ⟨0, "<script>alert(1)</script>"⟩ (List.mem_cons_self _ _) (by decide)

set_option maxRecDepth 200000 in
set_option maxHeartbeats 1000000 in
/-- C8 counterexample: the claim "embedded exactly as received, for every
segment" fails for a text containing a newline followed by leading
whitespace — `textwrap.dedent` strips the whitespace, so the received text
`"a\n b"` does not occur in the document while its mangled form `"a\nb"`
does. -/
theorem unescaped_text_counterexample :
    ¬ ("a\n b".data <:+: (html_template "YouTube Video vid" [⟨0, "a\n b"⟩] "vid").data) ∧
    ("a\nb".data <:+: (html_template "YouTube Video vid" [⟨0, "a\n b"⟩] "vid").data) := by
  constructor <;> with_unfolding_all decide

set_option maxRecDepth 200000 in
set_option maxHeartbeats 1000000 in
/-- C2 counterexample: on the specification's example transcript the claimed
line `"061.3  World"` does not occur in the rendered document at all
(Python's formatting is six characters wide and rounds `61.25` half to
even, producing `"0061.2"`), and `"000.0  Hello"` is not one of the
document's lines. -/
theorem rendering_format_counterexample :
    ¬ ("061.3  World".data <:+: (html_template "YouTube Video dQw4" tEx "dQw4").data) ∧
    "000.0  Hello".data ∉ splitLines (html_template "YouTube Video dQw4" tEx "dQw4").data := by
  constructor <;> with_unfolding_all decide

set_option maxRecDepth 200000 in
set_option maxHeartbeats 1000000 in
/-- C2 (amended): on the example transcript the preformatted block consists
exactly of the lines `"0000.0  Hello"` and `"0061.2  World"` in that order
(fixed one decimal, six characters zero-padded, rounding half to even, two
spaces, then the text), those two lines occur in that order in the rendered
document, and for every newline-free identifier the document contains the
canonical link `https://youtube.com/watch?v={id}`. -/
theorem rendering_format_amended :
    renderBody tEx = "0000.0  Hello\n0061.2  World".data ∧
    ("0000.0  Hello\n0061.2  World".data <:+:
      (html_template "YouTube Video dQw4" tEx "dQw4").data) ∧
    ∀ (title vid : String) (t : List Segment), '\n' ∉ vid.data →
      (urlBase ++ vid.data) <:+: (html_template title t vid).data :=
  ⟨by with_unfolding_all decide, by with_unfolding_all decide,
   fun title vid t hnl => canonical_link_present title vid t hnl⟩

/-- Closed instance of `rendering_format_amended`: the canonical link for the
example identifier occurs in the rendered document. -/
theorem rendering_format_amended_witness :
    (urlBase ++ "dQw4".data) <:+: (html_template "YouTube Video dQw4" tEx "dQw4").data :=
  rendering_format_amended.2.2 "YouTube Video dQw4" "dQw4" tEx (by decide)

end YTProxy
